import Mathlib

/-!
Verification development for the h2 HTTP/2 protocol engine.

The definitions below are a shallow embedding of the Rust sources under
`src/`.  Machine integers are modelled as `Nat`/`Int` with explicit
wrapping where the Rust semantics wraps.  Fallible Rust code returns
`Except`/`Option`; a Rust `unimplemented!()`/`panic!()` is modelled by an
explicit `panic` constructor of the result type.  Modules of the crate that
are referenced but whose source files are absent (the `hpack` module,
`proto/settings.rs`, `proto/peer.rs`, `frame/head.rs`) are modelled from
the specification; each such definition carries a doc comment starting
with `Modelled from the spec:`.
-/

namespace H2

/-- Error reasons (`error::Reason` in the crate): the HTTP/2 error codes
used by the embedded code paths. -/
inductive Reason where
  | NoError
  | ProtocolError
  | InternalError
  | FlowControlError
  | FrameSizeError
  | RefusedStream
  | Cancel
  deriving DecidableEq, Repr

/-- User-facing errors (`error::User`): returned when the local actor
misuses the connection. -/
inductive UserError where
  | InvalidStreamId
  | UnexpectedFrameType
  | Rejected
  | FlowControlViolation
  deriving DecidableEq, Repr

/-- `ConnectionError` as used by `proto/streams.rs` and
`proto/streams/flow_control.rs`: either a protocol-level reason or a user
error. -/
inductive ConnectionError where
  | Proto (r : Reason)
  | User (u : UserError)
  deriving DecidableEq, Repr

/-- Interpret a `u32` value as Rust's `as i32` cast does: two's-complement
reinterpretation of the low 32 bits. -/
def toI32 (n : Nat) : Int :=
  if n % 2 ^ 32 < 2 ^ 31 then ((n % 2 ^ 32 : Nat) : Int)
  else ((n % 2 ^ 32 : Nat) : Int) - 2 ^ 32

/-- Wrap an unbounded `Int` into the `i32` range, as Rust's release-mode
wrapping addition does. -/
def wrapI32 (z : Int) : Int :=
  (z + 2 ^ 31) % 2 ^ 32 - 2 ^ 31

/-- `FlowControl` from `src/proto/streams/flow_control.rs`: `window_size`
is an `i32` (it can go negative), `available` a `u32` (`WindowSize`). -/
structure FlowControl where
  window_size : Int
  available : Nat
  deriving DecidableEq, Repr

namespace FlowControl

/-- `FlowControl::new`. -/
def new : FlowControl := { window_size := 0, available := 0 }

/-- `FlowControl::window_size`: the window as known by the peer, clamped
at zero. -/
def window_size_fn (fc : FlowControl) : Nat :=
  if fc.window_size < 0 then 0 else fc.window_size.toNat

/-- `FlowControl::inc_window` from `src/proto/streams/flow_control.rs`
lines 59-63.  The source is

    // TODO: Handle invalid increment
    self.window_size += sz as i32;
    Ok(())

i.e. an unconditional wrapping `i32` addition that always succeeds. -/
def inc_window (fc : FlowControl) (sz : Nat) : Except ConnectionError FlowControl :=
  .ok { fc with window_size := wrapI32 (fc.window_size + toI32 sz) }

/-- `FlowControl::send_data` (caller must ensure capacity): decrements the
window by the sent byte count. -/
def send_data (fc : FlowControl) (sz : Nat) : FlowControl :=
  { fc with window_size := wrapI32 (fc.window_size - toI32 sz) }

end FlowControl

/-! ## Frame flags and the HEADERS frame (`src/frame/headers.rs`) -/

/-- Flag bits from `src/frame/headers.rs`. -/
def END_STREAM : Nat := 0x1
/-- END_HEADERS flag bit. -/
def END_HEADERS : Nat := 0x4

/-- `HeadersFlag` is a `u8` of flag bits. -/
structure HeadersFlag where
  bits : Nat
  deriving DecidableEq, Repr

/-- `HeadersFlag::is_end_stream`. -/
def HeadersFlag.is_end_stream (f : HeadersFlag) : Bool :=
  f.bits &&& END_STREAM == END_STREAM

/-- `HeadersFlag::is_end_headers`. -/
def HeadersFlag.is_end_headers (f : HeadersFlag) : Bool :=
  f.bits &&& END_HEADERS == END_HEADERS

/-! ## The second-generation stream receiver dispatch
(`src/proto/streams/streams.rs`, `Streams::recv_headers`) -/

/-- Outcome of the HEADERS dispatch in `Streams::recv_headers`
(`src/proto/streams/streams.rs` lines 112-132).  The two delegated
actions, `Recv::recv_headers` and `Recv::recv_trailers`, live in
`proto/streams/recv.rs`, which is absent from `src/`; they are kept
abstract as outcome markers. -/
inductive RecvHeadersOutcome where
  | initialHeaders
  | connectionError (r : Reason)
  | trailers
  deriving DecidableEq, Repr

/-- The dispatch on an existing stream in `Streams::recv_headers`:

    let res = if stream.state.is_recv_headers() {
        actions.recv.recv_headers(frame, stream, counts)
    } else {
        if !frame.is_end_stream() {
            return Err(RecvError::Connection(Reason::PROTOCOL_ERROR));
        }
        actions.recv.recv_trailers(frame, stream)
    };

`is_recv_headers` is true while the stream is still waiting for its
initial HEADERS. -/
def recv_headers_dispatch (is_recv_headers : Bool) (flags : HeadersFlag) :
    RecvHeadersOutcome :=
  if is_recv_headers then .initialHeaders
  else if !flags.is_end_stream then .connectionError .ProtocolError
  else .trailers

/-! ## PING frames and the ping-pong engine (`src/frame/ping.rs`,
`src/proto/ping_pong.rs`) -/

/-- `Ping` from `src/frame/ping.rs`: ACK flag plus opaque payload bytes. -/
structure Ping where
  ack : Bool
  payload : List Nat
  deriving DecidableEq, Repr

/-- `Ping::ping`. -/
def Ping.mkPing (payload : List Nat) : Ping := { ack := false, payload }

/-- `Ping::pong`: a PING response with the ACK flag set. -/
def Ping.mkPong (payload : List Nat) : Ping := { ack := true, payload }

/-- The frame variants matched by the connection driver
(`src/proto/connection.rs`, `Connection::recv_frame`): Headers, Data,
Reset, PushPromise, Settings, Ping and WindowUpdate.  Payloads are kept to
the fields the embedded code paths inspect. -/
inductive Frame where
  | headers (stream_id : Nat) (flags : HeadersFlag)
  | data (stream_id : Nat) (len : Nat) (end_stream : Bool)
  | reset (stream_id : Nat) (reason : Reason)
  | pushPromise (stream_id : Nat)
  | settings (ack : Bool)
  | ping (p : Ping)
  | windowUpdate (stream_id : Nat) (increment : Nat)
  deriving DecidableEq, Repr

/-- `PingPong` state from `src/proto/ping_pong.rs`: the wrapped stream is
modelled separately; the engine keeps a closed flag and the queue of pongs
awaiting transmission. -/
structure PingPongState where
  is_closed : Bool
  sending_pongs : List Frame
  deriving DecidableEq, Repr

/-- True for the frames `PingPong::poll` intercepts: a PING whose ACK flag
is clear. -/
def isPingRequest : Frame → Bool
  | .ping p => !p.ack
  | _ => false

/-- The pong enqueued for a ping request
(`Ping::pong(ping.into_payload())`). -/
def pongFor : Frame → Option Frame
  | .ping p => if p.ack then none else some (.ping (Ping.mkPong p.payload))
  | _ => none

/-- Result of one `PingPong::poll` call. -/
inductive PingPollResult where
  | readyFrame (f : Frame)
  | readyNone
  | notReady
  deriving DecidableEq, Repr

/-- `PingPong::send_pongs`: pops queued pongs and pushes them into the
inner sink; on a blocked sink the popped pong is pushed back at the front.
The inner sink is modelled as uniformly ready or uniformly blocked during
one call; it returns the frames actually handed to the sink. -/
def send_pongs (sinkReady : Bool) (pongs : List Frame) :
    List Frame × List Frame :=
  if sinkReady then (pongs, []) else ([], pongs)

/-- `PingPong::poll` from `src/proto/ping_pong.rs` lines 59-100, with the
inner stream modelled as the list of frames it will yield followed by a
terminal event (`eof = true` for `Ready(None)`, `false` for `NotReady`).
Returns the poll result, the frames sent to the sink by `send_pongs`, and
the new state.  The loop:

  - a PING without ACK enqueues `Ping::pong(payload)` and continues;
  - every other frame is returned unchanged;
  - on the terminal event, pending pongs are flushed via `send_pongs`. -/
def pingPongPoll (st : PingPongState) (inner : List Frame) (eof : Bool)
    (sinkReady : Bool) : PingPollResult × List Frame × PingPongState :=
  if st.is_closed then (.readyNone, [], st)
  else
    match inner with
    | [] =>
        let (sent, rest) := send_pongs sinkReady st.sending_pongs
        if eof then
          (.readyNone, sent, { is_closed := true, sending_pongs := rest })
        else
          (.notReady, sent, { st with sending_pongs := rest })
    | f :: tail =>
        match f with
        | .ping p =>
            if p.ack then (.readyFrame f, [], st)
            else
              pingPongPoll
                { st with
                  sending_pongs :=
                    st.sending_pongs ++ [Frame.ping (Ping.mkPong p.payload)] }
                tail eof sinkReady
        | _ => (.readyFrame f, [], st)

/-! ## Stream ids and the first-generation stream set (`src/proto/streams.rs`) -/

/-- Stream identifiers are 31-bit integers. -/
abbrev StreamId := Nat

/-- Modelled from the spec: `frame/head.rs` (the `StreamId` methods) is
absent from `src/`.  "Odd = client-initiated; even = server-initiated",
so `is_server_initiated` tests evenness. -/
def StreamId.is_server_initiated (id : StreamId) : Bool := id % 2 == 0

/-- `StreamId::is_zero`. -/
def StreamId.is_zero (id : StreamId) : Bool := id == 0

/-- The fields of `Inner` in `src/proto/streams.rs` that govern opening
remote-initiated streams and the deferred refusal slot. -/
structure StreamsInner where
  is_server : Bool
  max_remote_initiated : Option Nat
  num_remote_initiated : Nat
  refused : Option StreamId
  deriving DecidableEq, Repr

/-- Result of Rust code that can also hit a `panic!`-family macro
(`assert!`, `unimplemented!`). -/
inductive RustResult (ε α : Type) where
  | ok (a : α)
  | err (e : ε)
  | panic
  deriving DecidableEq, Repr

/-- `Inner::can_remote_open` from `src/proto/streams.rs` lines 453-461:

    if self.is_server {
        // Remote is a client and cannot open streams
        return false;
    }
    // Ensure that the ID is a valid server initiated ID
    id.is_server_initiated()
-/
def can_remote_open (inner : StreamsInner) (id : StreamId) : Bool :=
  if inner.is_server then false else id.is_server_initiated

/-- `Inner::remote_open` from `src/proto/streams.rs` lines 296-314.
Returns `some ()` (a fresh default stream state) if the stream may open,
`none` if it was refused (recording the id in the `refused` slot), or a
protocol error.  The leading `assert!(self.refused.is_none())` panics if a
refusal is already pending. -/
def remote_open (inner : StreamsInner) (id : StreamId) :
    RustResult ConnectionError (Option Unit × StreamsInner) :=
  if inner.refused.isSome then .panic
  else if !can_remote_open inner id then .err (.Proto .ProtocolError)
  else
    match inner.max_remote_initiated with
    | some max =>
        if max ≤ inner.num_remote_initiated then
          .ok (none, { inner with refused := some id })
        else
          .ok (some (),
            { inner with num_remote_initiated := inner.num_remote_initiated + 1 })
    | none =>
        .ok (some (),
          { inner with num_remote_initiated := inner.num_remote_initiated + 1 })

/-- Result of `Inner::send_pending_refusal`
(`src/proto/streams.rs` lines 517-537). -/
inductive RefusalPoll where
  | ready (sent : List Frame) (inner : StreamsInner)
  | notReady (inner : StreamsInner)
  | panic (sent : List Frame)
  deriving DecidableEq, Repr

/-- `Inner::send_pending_refusal`: when a refusal is pending, a
`RST_STREAM(REFUSED_STREAM)` frame is handed to the codec; if the codec
accepts it the code then calls `self.reset(stream_id, RefusedStream)`,
which is `unimplemented!()` (line 588-590) and panics; if the codec is
blocked the refusal is put back and the poll is not ready. -/
def send_pending_refusal (inner : StreamsInner) (codecReady : Bool) : RefusalPoll :=
  match inner.refused with
  | some id =>
      if codecReady then .panic [Frame.reset id .RefusedStream]
      else .notReady inner
  | none => .ready [] inner

/-- The vacant-entry path of `Streams::recv_headers`
(`src/proto/streams.rs` lines 110-142) for a non-trailers frame on an
unknown stream id: `validate_stream_id`, then `remote_open`; `Ok(None)`
from `remote_open` drops the frame without inserting a stream. -/
inductive RecvHeadersOld where
  | opened (inner : StreamsInner)
  | dropped (inner : StreamsInner)
  | err (e : ConnectionError)
  | panic
  deriving DecidableEq, Repr

/-- `Streams::recv_headers`, vacant-entry path (stream id not present in
the map, frame is not trailers). -/
def recv_headers_open (inner : StreamsInner) (id : StreamId) : RecvHeadersOld :=
  if id.is_zero then .err (.Proto .ProtocolError)
  else
    match remote_open inner id with
    | .ok (some _, inner') => .opened inner'
    | .ok (none, inner') => .dropped inner'
    | .err e => .err e
    | .panic => .panic

/-! ## Frame decoding and CONTINUATION tracking (`src/codec/framed_read.rs`) -/

/-- Frame kinds as classified by `frame::Head::parse`. -/
inductive Kind where
  | Data
  | Headers
  | Priority
  | Reset
  | Settings
  | PushPromise
  | Ping
  | GoAway
  | WindowUpdate
  | Continuation
  | Unknown
  deriving DecidableEq, Repr

/-- Parsed 9-byte frame header: kind, flags byte, stream id. -/
structure Head where
  kind : Kind
  flag : Nat
  stream_id : StreamId
  deriving DecidableEq, Repr

/-- `Partial` from `src/codec/framed_read.rs`: a buffered header-block
fragment (HEADERS or PUSH_PROMISE whose END_HEADERS was clear), keyed by
the originating frame's stream id, plus the accumulated payload bytes. -/
structure PartialFrame where
  stream_id : StreamId
  buf : List Nat
  deriving DecidableEq, Repr

/-- Result of the HPACK load of a completed header block.  The `hpack`
module is absent from `src/`, so the three outcomes the caller
distinguishes are kept abstract. -/
inductive HpackRes where
  | ok
  | malformed
  | other
  deriving DecidableEq, Repr

/-- Outcome of `FramedRead::decode_frame` restricted to the
partial-fragment bookkeeping. -/
inductive DecodeOut where
  | frame (stream_id : StreamId)
  | nothing
  | connErr (r : Reason)
  | streamErr (id : StreamId) (r : Reason)
  | otherArm
  deriving DecidableEq, Repr

/-- The partial-fragment logic of `FramedRead::decode_frame`
(`src/codec/framed_read.rs` lines 59-70 and the `Kind::Continuation` arm,
lines 290-329):

  - while a partial header block is buffered, any frame whose kind is not
    CONTINUATION is a connection `PROTOCOL_ERROR` (lines 67-70);
  - a CONTINUATION with no buffered partial is a connection
    `PROTOCOL_ERROR`;
  - otherwise the payload is appended to the buffer; if END_HEADERS is
    clear the partial is stored back and no frame is produced; when
    END_HEADERS is set, a stream-id mismatch is a connection
    `PROTOCOL_ERROR`, and otherwise the buffered block is HPACK-decoded
    (`hpackRes` abstracts the decoder's verdict) and yields the completed
    frame.

Non-CONTINUATION kinds reached with no partial buffered dispatch to their
own arms, abstracted as `otherArm`. -/
def decode_frame_step (part : Option PartialFrame) (head : Head)
    (payload : List Nat) (hpackRes : HpackRes) :
    DecodeOut × Option PartialFrame :=
  if part.isSome && head.kind != Kind.Continuation then
    (.connErr .ProtocolError, part)
  else
    match head.kind with
    | .Continuation =>
        let end_of_headers := head.flag &&& 0x4 == 0x4
        match part with
        | none => (.connErr .ProtocolError, none)
        | some p =>
            let p := { p with buf := p.buf ++ payload }
            if !end_of_headers then (.nothing, some p)
            else if p.stream_id != head.stream_id then
              (.connErr .ProtocolError, none)
            else
              match hpackRes with
              | .ok => (.frame p.stream_id, none)
              | .malformed => (.streamErr head.stream_id .ProtocolError, none)
              | .other => (.connErr .ProtocolError, none)
    | _ => (.otherArm, part)

/-! ## Server handshake: SETTINGS flush then preface read (`src/server.rs`) -/

/-- The 24-byte client preface `PRI * HTTP/2.0\r\n\r\nSM\r\n\r\n`
(`src/server.rs` line 78). -/
def PREFACE : List Nat :=
  [80, 82, 73, 32, 42, 32, 72, 84, 84, 80, 47, 50, 46, 48,
   13, 10, 13, 10, 83, 77, 13, 10, 13, 10]

/-- Result of `ReadPreface::poll`. -/
inductive PrefaceResult where
  | ready (pos : Nat)
  | notReady (pos : Nat)
  | protoErr
  deriving DecidableEq, Repr

/-- `ReadPreface::poll` from `src/server.rs` lines 455-472, with the
transport modelled as the list of byte chunks successive `read` calls
return (each read fills at most the remaining `rem = 24 - pos` bytes):

    while rem > 0 {
        let n = try_nb!(self.inner_mut().read(&mut buf[..rem]));
        if PREFACE[self.pos..self.pos + n] != buf[..n] {
            return Err(Reason::PROTOCOL_ERROR.into());
        }
        self.pos += n;
        rem -= n;
    }

An exhausted chunk list is the transport returning `WouldBlock`. -/
def readPreface (pos : Nat) : List (List Nat) → PrefaceResult
  | [] => if 24 - pos = 0 then .ready pos else .notReady pos
  | c :: rest =>
      if 24 - pos = 0 then .ready pos
      else if (PREFACE.drop pos).take c.length = c then
        readPreface (pos + c.length) rest
      else .protoErr

/-- The server handshake states (`server::Handshaking`). -/
inductive Handshaking where
  | Flushing
  | ReadingPreface (pos : Nat)
  | Empty
  deriving DecidableEq, Repr

/-- The handshake value produced by `Server::handshake2`
(`src/server.rs` lines 107-124): the SETTINGS frame is buffered into the
codec and the state starts at `Flushing`. -/
structure HandshakeState where
  buffered : List Frame
  state : Handshaking
  deriving DecidableEq, Repr

/-- `Server::handshake2`: buffer the initial SETTINGS frame, then enter
the flushing state. -/
def handshake2 : HandshakeState :=
  { buffered := [Frame.settings false], state := .Flushing }

/-- One step of `Handshake::poll` (`src/server.rs` lines 484-529) in the
`Flushing` state: while the codec flush is not ready the poll returns
without reading; once the flush completes (the write buffer drains) the
state advances to `ReadingPreface` and only then is the transport read. -/
def handshakeFlushStep (h : HandshakeState) (flushReady : Bool) : HandshakeState :=
  match h.state with
  | .Flushing =>
      if flushReady then { buffered := [], state := .ReadingPreface 0 }
      else h
  | _ => h

/-! ## The intrusive scheduling queue (`src/proto/streams/store.rs`) -/

/-- Slab keys (`store::Key`). -/
abbrev Key := Nat

/-- The queue-relevant fields of a stream record: the intrusive `next`
link and the queued flag manipulated through the `Next` trait. -/
structure QStream where
  next : Option Key
  is_queued : Bool
  deriving DecidableEq, Repr

/-- The slab, viewed as a total map from keys to stream records (only the
keys actually mentioned in a proof matter). -/
def QStore := Key → QStream

/-- Pointwise update of one slab entry. -/
def QStore.update (s : QStore) (k : Key) (f : QStream → QStream) : QStore :=
  fun k2 => if k2 = k then f (s k) else s k2

/-- `Queue` from `src/proto/streams/store.rs`: optional head/tail key
pair. -/
structure SQueue where
  indices : Option (Key × Key)
  deriving DecidableEq, Repr

/-- `Queue::push` (`src/proto/streams/store.rs` lines 175-204): if the
stream's queued flag is set, return `false` and change nothing; otherwise
set the flag, link the old tail to the stream (when the queue is
nonempty) and make it the new tail. -/
def Queue.push (q : SQueue) (store : QStore) (key : Key) :
    Bool × SQueue × QStore :=
  if (store key).is_queued then (false, q, store)
  else
    let store1 := store.update key fun s => { s with is_queued := true }
    match q.indices with
    | some ht =>
        let store2 := store1.update ht.2 fun s => { s with next := some key }
        (true, ⟨some (ht.1, key)⟩, store2)
    | none => (true, ⟨some (key, key)⟩, store1)

/-- Result of `Queue::pop`. -/
inductive PopOut where
  | empty (q : SQueue) (store : QStore)
  | popped (k : Key) (q : SQueue) (store : QStore)
  | panic

/-- `Queue::pop` (`src/proto/streams/store.rs` lines 206-226): take the
head; when head = tail the queue becomes empty (after an `assert!` that
the head's link is clear), otherwise the head's `next` link is taken
(`unwrap`, panicking when absent) and becomes the new head; the popped
stream's queued flag is cleared. -/
def Queue.pop (q : SQueue) (store : QStore) : PopOut :=
  match q.indices with
  | none => .empty q store
  | some ht =>
      if ht.1 = ht.2 then
        if (store ht.1).next ≠ none then .panic
        else
          .popped ht.1 ⟨none⟩
            (store.update ht.1 fun s => { s with is_queued := false })
      else
        match (store ht.1).next with
        | none => .panic
        | some nxt =>
            let store1 := store.update ht.1 fun s => { s with next := none }
            let store2 := store1.update ht.1 fun s => { s with is_queued := false }
            .popped ht.1 ⟨some (nxt, ht.2)⟩ store2

/-- The links of the slab spell the given list: each element's `next`
points to its successor and the last element's `next` is clear. -/
def linksB (store : QStore) : List Key → Bool
  | [] => true
  | [a] => (store a).next == none
  | a :: b :: rest => (store a).next == some b && linksB store (b :: rest)

/-- The queue's indices and the slab links describe exactly the list `l`:
head and tail match, the links spell `l`, and every member is flagged as
queued. -/
def chainB (store : QStore) (q : SQueue) (l : List Key) : Bool :=
  match q.indices with
  | none => l.isEmpty
  | some ht =>
      l.head? == some ht.1 && l.getLast? == some ht.2 &&
      linksB store l && l.all fun k => (store k).is_queued

/-! ## Connection driver model (`src/proto/connection.rs`) -/

/-- The connection-level write obligations drained by
`Connection::poll_recv_ready`: pending pongs (`ping_pong.sending_pongs`),
a pending SETTINGS-ACK (settings engine) and the pending stream refusal
(`streams.refused`). -/
structure ConnState where
  pongs : List (List Nat)
  pending_ack : Bool
  refused : Option StreamId
  deriving DecidableEq, Repr

/-- Events of a driver trace: frames read from and frames written to the
codec. -/
inductive Ev where
  | read (f : Frame)
  | wrote (f : Frame)
  deriving DecidableEq, Repr

/-- `Connection::poll_recv_ready` (`src/proto/connection.rs` lines
119-129) with the codec write buffer ready: pending pongs, then the
pending SETTINGS-ACK, then the pending RST_STREAM refusal are committed
to the codec, in that order, before any further frame is read.
(Completing a refusal additionally reaches the unimplemented
`Inner::reset`; that divergence is treated with `send_pending_refusal`
above.) -/
def poll_recv_ready (st : ConnState) : List Ev × ConnState :=
  let pongEvs := st.pongs.map fun pl => Ev.wrote (Frame.ping (Ping.mkPong pl))
  let ackEvs := if st.pending_ack then [Ev.wrote (Frame.settings true)] else []
  let refEvs :=
    match st.refused with
    | some id => [Ev.wrote (Frame.reset id .RefusedStream)]
    | none => []
  (pongEvs ++ ackEvs ++ refEvs,
   { pongs := [], pending_ack := false, refused := none })

/-- `Connection::poll_send_ready` (`src/proto/connection.rs` lines
136-143): first `poll_recv_ready` (pongs, SETTINGS-ACK, refusal), then
the pending WINDOW_UPDATE frames, so every high-priority write precedes
every window update produced by the same poll. -/
def poll_send_ready (st : ConnState) (windowUpdates : List Frame) :
    List Ev × ConnState :=
  let (evs, st1) := poll_recv_ready st
  (evs ++ windowUpdates.map Ev.wrote, st1)

/-- The connection-state effect of dispatching one received frame in
`Connection::recv_frame` (`src/proto/connection.rs` lines 166-221).
Modelled from the spec for the two engine calls whose sources are absent
from `src/`: `Settings::recv_settings` ("on receipt of non-ACK SETTINGS,
the engine queues an ACK"; an ACK instead promotes pending local
settings) and `PingPong::recv_ping` ("on inbound PING without ACK,
enqueue a PING with ACK and identical payload"; a PING with ACK is
delivered or discarded).  The remaining arms leave the connection-level
write obligations unchanged. -/
def dispatchFrame (st : ConnState) : Frame → ConnState
  | .settings ack => if ack then st else { st with pending_ack := true }
  | .ping p =>
      if p.ack then st else { st with pongs := st.pongs ++ [p.payload] }
  | _ => st

/-- The trace of the driver's read loop (`Connection::recv_frame`, lines
146-223) over a whole inbound frame sequence: every iteration first
drains the high-priority writes (`poll_recv_ready`), then reads the next
frame and dispatches it; frames that `recv_frame` returns to the user
re-enter the loop through the next `poll` call, which again starts with
`poll_recv_ready`, so the composed trace is the same.  After the last
frame, the next poll again drains the pending writes. -/
def recvLoop (st : ConnState) : List Frame → List Ev
  | [] => (poll_recv_ready st).1
  | f :: rest =>
      (poll_recv_ready st).1 ++
        (Ev.read f :: recvLoop (dispatchFrame (poll_recv_ready st).2 f) rest)

/-- A read of a SETTINGS frame without ACK. -/
def isSettingsRead : Ev → Bool
  | .read (.settings false) => true
  | _ => false

/-- A write of a SETTINGS-ACK frame. -/
def isAckWrite : Ev → Bool
  | .wrote (.settings true) => true
  | _ => false

/-- Any read event. -/
def Ev.isRead : Ev → Bool
  | .read _ => true
  | _ => false

/-- The SETTINGS-ACK discipline over a trace, scanning with a flag that
records whether an ACK is owed: reading a non-ACK SETTINGS requires no
ACK to be owed and makes one owed; a SETTINGS-ACK write is allowed only
when owed (so never duplicated or unsolicited) and discharges it; every
other read requires no ACK to be owed; at the end of the trace no ACK is
owed. -/
def ackDiscipline : Bool → List Ev → Bool
  | pending, [] => !pending
  | pending, e :: rest =>
      if isAckWrite e then pending && ackDiscipline false rest
      else if isSettingsRead e then !pending && ackDiscipline true rest
      else if e.isRead then !pending && ackDiscipline false rest
      else ackDiscipline pending rest

/-- Outcome of dispatching the first frame received after the handshake
(`Connection::recv_frame` with the connection in its initial state:
empty stream map, no pending writes). -/
inductive FirstFrameOutcome where
  | deliver
  | loops (st : ConnState)
  | err (e : ConnectionError)
  | panic
  deriving DecidableEq, Repr

/-- The initial connection state after the handshake. -/
def initConnState : ConnState :=
  { pongs := [], pending_ack := false, refused := none }

/-- `Connection::recv_frame` applied to the first frame the peer sends
after the handshake, with the stream map empty (`src/proto/connection.rs`
lines 146-223 together with `src/proto/streams.rs`):

  - HEADERS opens a stream via the vacant-entry path (`recv_headers_open`)
    and, if opened, is returned to the user;
  - DATA on the unknown stream id is a protocol error (stream not found);
  - RST_STREAM reaches `Streams::recv_reset`, which is `unimplemented!()`;
  - PUSH_PROMISE reaches `Streams::recv_push_promise`, `unimplemented!()`;
  - SETTINGS is handed to the settings engine and the loop continues;
  - PING is handed to the ping-pong engine and the loop continues;
  - WINDOW_UPDATE is handed to `Streams::recv_window_update` (which
    returns no error) and the loop continues.

No arm checks whether a SETTINGS frame has been received first. -/
def recv_first_frame (isServer : Bool) (maxRemote : Option Nat) :
    Frame → FirstFrameOutcome
  | .headers id _flags =>
      match recv_headers_open
          { is_server := isServer, max_remote_initiated := maxRemote,
            num_remote_initiated := 0, refused := none } id with
      | .opened _ => .deliver
      | .dropped _ => .loops initConnState
      | .err e => .err e
      | .panic => .panic
  | .data _ _ _ => .err (.Proto .ProtocolError)
  | .reset _ _ => .panic
  | .pushPromise _ => .panic
  | .settings ack => .loops (dispatchFrame initConnState (.settings ack))
  | .ping p => .loops (dispatchFrame initConnState (.ping p))
  | .windowUpdate _ _ => .loops initConnState

/-! ## HPACK codec

Modelled from the spec: the crate's `hpack` module (encoder, decoder,
Huffman tables) is absent from `src/`; only its callers
(`src/frame/headers.rs`, `src/codec/framed_read.rs`, `src/fuzz_bridge.rs`)
are present.  Following §4.2 of the spec, the encoder "may choose
indexed, literal-with-indexing, or literal-never-indexed per header";
this model fixes the literal-never-indexed representation with
non-Huffman string literals, and the RFC 7541 §5.1 prefixed-integer
encoding for lengths.  The decoder parses exactly the representations the
encoder emits. -/

/-- A header event at the (name, value) level: both pseudo headers and
regular fields are carried as byte-string pairs. -/
structure HField where
  name : List Nat
  value : List Nat
  deriving DecidableEq, Repr

/-- Continuation bytes of an HPACK prefixed integer (RFC 7541 §5.1):
little-endian base-128 groups, high bit set on all but the last. -/
def encVar (n : Nat) : List Nat :=
  if h : n < 128 then [n] else (n % 128 + 128) :: encVar (n / 128)
  decreasing_by exact Nat.div_lt_self (by omega) (by omega)

/-- An HPACK integer with a 7-bit prefix (as used for string lengths with
the Huffman bit clear): values below 127 fit the prefix, larger values
put 127 in the prefix and continue with `encVar`. -/
def encInt7 (n : Nat) : List Nat :=
  if n < 127 then [n] else 127 :: encVar (n - 127)

/-- Decode `encVar`'s continuation bytes. -/
def decVar : List Nat → Option (Nat × List Nat)
  | [] => none
  | b :: rest =>
      if b < 128 then some (b, rest)
      else (decVar rest).map fun p => (b - 128 + 128 * p.1, p.2)

/-- Decode a 7-bit-prefix HPACK integer (masking off the Huffman bit). -/
def decInt7 : List Nat → Option (Nat × List Nat)
  | [] => none
  | b :: rest =>
      let p := b % 128
      if p < 127 then some (p, rest)
      else (decVar rest).map fun q => (127 + q.1, q.2)

/-- A string literal: length (Huffman bit clear) followed by the raw
octets. -/
def encStr (s : List Nat) : List Nat := encInt7 s.length ++ s

/-- Decode a string literal. -/
def decStr (l : List Nat) : Option (List Nat × List Nat) :=
  match decInt7 l with
  | none => none
  | some (n, r) => if n ≤ r.length then some (r.take n, r.drop n) else none

/-- One header encoded as literal-never-indexed with a literal name:
first byte `0x10` (the never-indexed pattern with index 0), then the name
and value string literals. -/
def encField (f : HField) : List Nat :=
  0x10 :: (encStr f.name ++ encStr f.value)

/-- Decode one header representation (the representation this encoder
emits). -/
def decField : List Nat → Option (HField × List Nat)
  | [] => none
  | b :: rest =>
      if b = 0x10 then
        match decStr rest with
        | none => none
        | some (nm, r1) =>
            match decStr r1 with
            | none => none
            | some (v, r2) => some (⟨nm, v⟩, r2)
      else none

/-- HPACK-encode an ordered header list (pseudo headers first, then
regular fields, in the order `frame::headers::Iter` yields them). -/
def hpackEncode (fs : List HField) : List Nat :=
  (fs.map encField).flatten

/-- Fueled decoding loop over a header block. -/
def decFieldsF : Nat → List Nat → Option (List HField)
  | _, [] => some []
  | 0, _ => none
  | fuel + 1, l =>
      match decField l with
      | some (f, rest) => (decFieldsF fuel rest).map (f :: ·)
      | none => none

/-- HPACK-decode a header block into the ordered header list. -/
def hpackDecode (l : List Nat) : Option (List HField) :=
  decFieldsF l.length l

/-! ## Theorems -/

/-- C1: the spec claims a WINDOW_UPDATE pushing a window past 2³¹−1 fails
with FLOW_CONTROL_ERROR.  The code disagrees: `FlowControl::inc_window`
always returns `Ok` (its own `TODO: Handle invalid increment` marks the
missing check), performing a wrapping `i32` addition; at
`window_size = 2³¹−1` an increment of 1 silently wraps the window to
−2³¹ instead of failing.  Within range the window does increase by
exactly the increment. -/
theorem inc_window_no_overflow_check :
    (∀ (fc : FlowControl) (sz : Nat), ∃ fc',
        FlowControl.inc_window fc sz = .ok fc') ∧
    FlowControl.inc_window ⟨2 ^ 31 - 1, 0⟩ 1 = .ok ⟨-(2 ^ 31), 0⟩ ∧
    FlowControl.inc_window ⟨10, 0⟩ 3 = .ok ⟨13, 0⟩ := by
  refine ⟨fun fc sz => ⟨_, rfl⟩, ?_, ?_⟩ <;>
    · show Except.ok _ = _
      norm_num [FlowControl.inc_window, wrapI32, toI32]

/-- C2: the spec claims HEADERS over the concurrency cap is refused with
RST_STREAM(REFUSED_STREAM) and the connection stays open.  The code
disagrees twice.  (a) On a server, `Inner::can_remote_open` returns
`false` for every client-initiated id, so `remote_open` (and hence
`recv_headers`) answers any inbound HEADERS — over the cap or not — with
a connection ProtocolError and the refusal slot is never used.  (b) On
the path that does refuse (a client receiving a server-initiated id over
the cap), no stream is created and the frame is dropped, but committing
the queued RST_STREAM(REFUSED_STREAM) then calls `Inner::reset`, which is
`unimplemented!()` and panics the connection. -/
theorem remote_open_refusal_diverges :
    remote_open ⟨true, some 1, 1, none⟩ 3 = .err (.Proto .ProtocolError) ∧
    remote_open ⟨true, some 5, 0, none⟩ 1 = .err (.Proto .ProtocolError) ∧
    recv_headers_open ⟨true, some 1, 1, none⟩ 3 = .err (.Proto .ProtocolError) ∧
    remote_open ⟨false, some 0, 0, none⟩ 2 =
      .ok (none, ⟨false, some 0, 0, some 2⟩) ∧
    send_pending_refusal ⟨false, some 0, 0, some 2⟩ true =
      .panic [Frame.reset 2 .RefusedStream] := by
  decide

/-- C4: the spec claims a CONTINUATION whose stream id differs from the
buffered fragment's id is a connection PROTOCOL_ERROR.  The code checks
the ids only after the END_HEADERS test: a CONTINUATION for a different
stream *without* END_HEADERS is appended to the buffered fragment and
accepted (first conjunct, the divergence).  The claim's other parts hold:
a buffered fragment followed by any non-CONTINUATION frame is a
connection PROTOCOL_ERROR (second conjunct), and a mismatched
CONTINUATION that does carry END_HEADERS is rejected (third conjunct). -/
theorem continuation_stream_id_check_after_buffering :
    decode_frame_step (some ⟨1, [0x82]⟩) ⟨.Continuation, 0, 3⟩ [0x86] .ok =
      (.nothing, some ⟨1, [0x82, 0x86]⟩) ∧
    decode_frame_step (some ⟨1, [0x82]⟩) ⟨.Data, 0, 1⟩ [] .ok =
      (.connErr .ProtocolError, some ⟨1, [0x82]⟩) ∧
    decode_frame_step (some ⟨1, [0x82]⟩) ⟨.Continuation, 0x4, 3⟩ [0x86] .ok =
      (.connErr .ProtocolError, none) := by
  decide

/-- C10: on a stream that has already received its initial HEADERS
(`is_recv_headers()` is false), a further HEADERS frame with END_STREAM
clear is a connection PROTOCOL_ERROR, and with END_STREAM set it is
processed as trailers. -/
theorem recv_headers_second_frame (flags : HeadersFlag) :
    (flags.is_end_stream = false →
      recv_headers_dispatch false flags = .connectionError .ProtocolError) ∧
    (flags.is_end_stream = true →
      recv_headers_dispatch false flags = .trailers) := by
  constructor <;> intro h <;> simp [recv_headers_dispatch, h]

/-- Witness for C10 at concrete flag bytes: flags `0x4` (END_HEADERS
only, END_STREAM clear) and `0x5` (END_HEADERS and END_STREAM). -/
theorem recv_headers_second_frame_witness :
    recv_headers_dispatch false ⟨0x4⟩ = .connectionError .ProtocolError ∧
    recv_headers_dispatch false ⟨0x5⟩ = .trailers :=
  ⟨(recv_headers_second_frame ⟨0x4⟩).1 (by decide),
   (recv_headers_second_frame ⟨0x5⟩).2 (by decide)⟩

/-- An open `PingPong` returns any frame that is not a ping request
unchanged, with no state change and nothing handed to the sink. -/
theorem pingPongPoll_not_request (st : PingPongState) (f : Frame)
    (rest : List Frame) (eof sinkReady : Bool)
    (hopen : st.is_closed = false) (hf : isPingRequest f = false) :
    pingPongPoll st (f :: rest) eof sinkReady = (.readyFrame f, [], st) := by
  rw [pingPongPoll.eq_def]
  cases f <;> simp_all [isPingRequest]

/-- An open `PingPong` consumes a ping request by enqueueing the matching
pong and polling the inner stream again. -/
theorem pingPongPoll_request (st : PingPongState) (p : Ping)
    (tail : List Frame) (eof sinkReady : Bool)
    (hopen : st.is_closed = false) (hpa : p.ack = false) :
    pingPongPoll st (.ping p :: tail) eof sinkReady =
      pingPongPoll
        { st with sending_pongs :=
            st.sending_pongs ++ [Frame.ping (Ping.mkPong p.payload)] }
        tail eof sinkReady := by
  rw [pingPongPoll.eq_def]
  simp [hopen, hpa]

/-- C3: `PingPong::poll` enqueues, for every inbound PING whose ACK flag
is clear, exactly one PING with the ACK flag set and the identical
payload (in arrival order), and returns the first frame that is not such
a ping — in particular a PING with ACK set — unchanged, triggering no
response for it. -/
theorem ping_pong_poll_pongs (st : PingPongState) (pings : List Ping)
    (f : Frame) (rest : List Frame) (eof sinkReady : Bool)
    (hopen : st.is_closed = false)
    (hp : ∀ p ∈ pings, p.ack = false)
    (hf : isPingRequest f = false) :
    pingPongPoll st (pings.map Frame.ping ++ f :: rest) eof sinkReady =
      (.readyFrame f, [],
        { st with sending_pongs :=
            st.sending_pongs ++
              pings.map fun p => Frame.ping (Ping.mkPong p.payload) }) := by
  induction pings generalizing st with
  | nil =>
      simp only [List.map_nil, List.nil_append]
      rw [pingPongPoll_not_request st f rest eof sinkReady hopen hf]
      simp
  | cons p ps ih =>
      have hpa : p.ack = false := hp p (by simp)
      have hps : ∀ x ∈ ps, x.ack = false :=
        fun x hx => hp x (List.mem_cons_of_mem _ hx)
      simp only [List.map_cons, List.cons_append]
      rw [pingPongPoll_request st p _ eof sinkReady hopen hpa]
      rw [ih { st with sending_pongs :=
            st.sending_pongs ++ [Frame.ping (Ping.mkPong p.payload)] } hopen hps]
      simp

/-- Witness for C3: one ping request (payload `buoyant_`-like bytes)
followed by a ping ACK; exactly one pong with the identical payload is
enqueued and the ACK ping passes through. -/
theorem ping_pong_poll_pongs_witness :
    pingPongPoll ⟨false, []⟩
      [Frame.ping ⟨false, [1, 2, 3, 4, 5, 6, 7, 8]⟩,
       Frame.ping ⟨true, [9, 9, 9, 9, 9, 9, 9, 9]⟩] true true =
      (.readyFrame (Frame.ping ⟨true, [9, 9, 9, 9, 9, 9, 9, 9]⟩), [],
        ⟨false, [Frame.ping ⟨true, [1, 2, 3, 4, 5, 6, 7, 8]⟩]⟩) := by
  have h := ping_pong_poll_pongs ⟨false, []⟩ [⟨false, [1, 2, 3, 4, 5, 6, 7, 8]⟩]
    (Frame.ping ⟨true, [9, 9, 9, 9, 9, 9, 9, 9]⟩) [] true true rfl
    (by decide) (by decide)
  simpa using h

/-- Counterexample for C6: the first frame after the handshake need not
be SETTINGS.  A first PING (ACK clear) is handed to the ping-pong engine,
which queues the pong, and `recv_frame` simply continues; it is not a
connection PROTOCOL_ERROR. -/
theorem recv_first_frame_ping_ok :
    recv_first_frame false none (.ping ⟨false, [1, 2, 3, 4, 5, 6, 7, 8]⟩) =
      .loops { pongs := [[1, 2, 3, 4, 5, 6, 7, 8]],
               pending_ack := false, refused := none } ∧
    recv_first_frame false none (.ping ⟨false, [1, 2, 3, 4, 5, 6, 7, 8]⟩) ≠
      .err (.Proto .ProtocolError) ∧
    recv_first_frame false none (.windowUpdate 0 5) = .loops initConnState := by
  decide

/-- C6 (amended): `Connection::recv_frame` imposes no SETTINGS-first
requirement — the first frame is dispatched by kind exactly like any
later frame.  A first PING is processed by the ping-pong engine (its pong
queued when the ACK flag is clear) and the loop continues; a first
WINDOW_UPDATE is applied and the loop continues; a first SETTINGS (ACK
clear) queues the SETTINGS-ACK.  None of these is an error. -/
theorem recv_first_frame_no_settings_requirement
    (isServer : Bool) (maxRemote : Option Nat) (p : Ping) (id incr : Nat) :
    recv_first_frame isServer maxRemote (.ping p) =
      .loops (dispatchFrame initConnState (.ping p)) ∧
    (p.ack = false →
      recv_first_frame isServer maxRemote (.ping p) =
        .loops { pongs := [p.payload], pending_ack := false, refused := none }) ∧
    recv_first_frame isServer maxRemote (.windowUpdate id incr) =
      .loops initConnState ∧
    recv_first_frame isServer maxRemote (.settings false) =
      .loops { pongs := [], pending_ack := true, refused := none } := by
  refine ⟨rfl, ?_, rfl, rfl⟩
  intro hpa
  simp [recv_first_frame, dispatchFrame, hpa, initConnState]

/-- Witness for the amended C6 theorem at a concrete ping. -/
theorem recv_first_frame_no_settings_requirement_witness :
    recv_first_frame true (some 4) (.ping ⟨false, [0, 0, 0, 0, 0, 0, 0, 0]⟩) =
      .loops { pongs := [[0, 0, 0, 0, 0, 0, 0, 0]],
               pending_ack := false, refused := none } :=
  (recv_first_frame_no_settings_requirement true (some 4)
    ⟨false, [0, 0, 0, 0, 0, 0, 0, 0]⟩ 0 0).2.1 rfl

/-- When the chunks read from the transport spell out the remainder of
the preface, `ReadPreface::poll` completes at position 24. -/
theorem readPreface_complete : ∀ (chunks : List (List Nat)) (pos : Nat),
    pos ≤ 24 → chunks.flatten = PREFACE.drop pos →
    readPreface pos chunks = .ready 24
  | [], pos, hle, hjoin => by
      have hP : PREFACE.length = 24 := by decide
      have hlen : (0 : Nat) = 24 - pos := by
        have := congrArg List.length hjoin
        simpa [hP] using this
      have hpos : pos = 24 := by omega
      subst hpos
      simp [readPreface]
  | c :: rest, pos, hle, hjoin => by
      have hP : PREFACE.length = 24 := by decide
      have hjoin' : c ++ rest.flatten = PREFACE.drop pos := by
        simpa using hjoin
      have hlen' : c.length + rest.flatten.length = 24 - pos := by
        have := congrArg List.length hjoin'
        simpa [hP] using this
      by_cases h0 : 24 - pos = 0
      · have hpos : pos = 24 := by omega
        subst hpos
        simp [readPreface]
      · have htake : (PREFACE.drop pos).take c.length = c := by
          rw [← hjoin']
          exact List.take_left c rest.flatten
        rw [readPreface, if_neg h0, if_pos htake]
        apply readPreface_complete rest (pos + c.length) (by omega)
        have hsplit : PREFACE.drop (pos + c.length) =
            (PREFACE.drop pos).drop c.length := by
          rw [List.drop_drop]
        rw [hsplit, ← hjoin', List.drop_left]

/-- When the transport delivers exactly the remaining byte count but the
bytes differ from the preface, `ReadPreface::poll` fails with
PROTOCOL_ERROR. -/
theorem readPreface_mismatch : ∀ (chunks : List (List Nat)) (pos : Nat),
    pos ≤ 24 → chunks.flatten.length = 24 - pos →
    chunks.flatten ≠ PREFACE.drop pos →
    readPreface pos chunks = .protoErr
  | [], pos, hle, hlen, hne => by
      exfalso
      have hlen' : (0 : Nat) = 24 - pos := by simpa using hlen
      have hpos : pos = 24 := by omega
      subst hpos
      exact hne (by simp [show PREFACE.drop 24 = [] from by decide])
  | c :: rest, pos, hle, hlen, hne => by
      have hP : PREFACE.length = 24 := by decide
      have hflat : (c :: rest).flatten = c ++ rest.flatten := by simp
      have hlen' : c.length + rest.flatten.length = 24 - pos := by
        have := hlen
        rw [hflat] at this
        simpa using this
      by_cases h0 : 24 - pos = 0
      · exfalso
        have hc : c = [] := List.eq_nil_of_length_eq_zero (by omega)
        have hr : rest.flatten = [] := List.eq_nil_of_length_eq_zero (by omega)
        apply hne
        have hpos : pos = 24 := by omega
        subst hpos
        simp [hc, hr, show PREFACE.drop 24 = [] from by decide]
      · by_cases htake : (PREFACE.drop pos).take c.length = c
        · rw [readPreface, if_neg h0, if_pos htake]
          apply readPreface_mismatch rest (pos + c.length) (by omega)
          · omega
          · intro heq
            apply hne
            have hsplit : PREFACE.drop pos = c ++ PREFACE.drop (pos + c.length) := by
              conv_lhs => rw [← List.take_append_drop c.length (PREFACE.drop pos)]
              rw [htake]
              congr 1
              rw [List.drop_drop]
            rw [hflat, hsplit, heq]
        · rw [readPreface, if_neg h0, if_neg htake]

/-- C5: the server handshake (`Server::handshake2` and `Handshake::poll`)
buffers its SETTINGS frame and starts in the `Flushing` state; the
transport is read only after the flush completes, and then
`ReadPreface::poll` consumes exactly 24 bytes, succeeding precisely when
they equal `PRI * HTTP/2.0\r\n\r\nSM\r\n\r\n` octet-for-octet and
failing with PROTOCOL_ERROR precisely when they do not. -/
theorem server_handshake_preface (chunks : List (List Nat))
    (hlen : chunks.flatten.length = 24) :
    handshake2 = { buffered := [Frame.settings false], state := .Flushing } ∧
    handshakeFlushStep handshake2 false = handshake2 ∧
    handshakeFlushStep handshake2 true =
      { buffered := [], state := .ReadingPreface 0 } ∧
    (readPreface 0 chunks = .ready 24 ↔ chunks.flatten = PREFACE) ∧
    (readPreface 0 chunks = .protoErr ↔ chunks.flatten ≠ PREFACE) := by
  have hdrop : PREFACE.drop 0 = PREFACE := rfl
  refine ⟨rfl, rfl, rfl, ⟨?_, ?_⟩, ⟨?_, ?_⟩⟩
  · intro hr
    by_contra hne
    have := readPreface_mismatch chunks 0 (by omega) (by simpa using hlen)
      (by simpa [hdrop] using hne)
    rw [this] at hr
    exact PrefaceResult.noConfusion hr
  · intro he
    exact readPreface_complete chunks 0 (by omega) (by simpa [hdrop] using he)
  · intro hr
    intro he
    have := readPreface_complete chunks 0 (by omega) (by simpa [hdrop] using he)
    rw [this] at hr
    exact PrefaceResult.noConfusion hr
  · intro hne
    exact readPreface_mismatch chunks 0 (by omega) (by simpa using hlen)
      (by simpa [hdrop] using hne)

/-- Witness for C5: the exact preface bytes are accepted; 24 zero bytes
are rejected with PROTOCOL_ERROR. -/
theorem server_handshake_preface_witness :
    readPreface 0 [PREFACE] = .ready 24 ∧
    readPreface 0 [List.replicate 24 0] = .protoErr := by
  constructor
  · exact (server_handshake_preface [PREFACE] (by decide)).2.2.2.1.mpr (by simp)
  · exact (server_handshake_preface [List.replicate 24 0]
      (by decide)).2.2.2.2.mpr (by decide)

/-- An event that is neither a read nor a SETTINGS-ACK write cannot be a
SETTINGS read. -/
theorem isSettingsRead_of_not_read (e : Ev) (h : e.isRead = false) :
    isSettingsRead e = false := by
  cases e with
  | read f => simp [Ev.isRead] at h
  | wrote f => rfl

/-- Events that are neither reads nor SETTINGS-ACK writes do not affect
the ACK discipline. -/
theorem ackDiscipline_append_other (l : List Ev)
    (h : ∀ e ∈ l, isAckWrite e = false ∧ Ev.isRead e = false)
    (p : Bool) (rest : List Ev) :
    ackDiscipline p (l ++ rest) = ackDiscipline p rest := by
  induction l with
  | nil => rfl
  | cons e l ih =>
      have he := h e (by simp)
      have hs := isSettingsRead_of_not_read e he.2
      simp only [List.cons_append, ackDiscipline, he.1, hs, he.2]
      simp only [if_false, Bool.false_eq_true]
      exact ih fun x hx => h x (List.mem_cons_of_mem _ hx)

/-- The writes committed by `poll_recv_ready` satisfy the ACK discipline:
pongs and the refusal are neutral, and the SETTINGS-ACK is written
exactly when one is owed, before anything that follows. -/
theorem ackDiscipline_poll_recv_ready (st : ConnState) (rest : List Ev)
    (h : ackDiscipline false rest = true) :
    ackDiscipline st.pending_ack ((poll_recv_ready st).1 ++ rest) = true := by
  unfold poll_recv_ready
  simp only [List.append_assoc]
  rw [ackDiscipline_append_other (st.pongs.map fun pl =>
      Ev.wrote (Frame.ping (Ping.mkPong pl)))
      (by intro e he; simp at he; obtain ⟨pl, _, rfl⟩ := he
          exact ⟨rfl, rfl⟩)]
  cases hpa : st.pending_ack with
  | false =>
      simp only [Bool.false_eq_true, if_false, List.nil_append]
      cases hr : st.refused with
      | none => simpa using h
      | some id =>
          rw [ackDiscipline_append_other [Ev.wrote (Frame.reset id .RefusedStream)]
            (by intro e he; simp at he; subst he; exact ⟨rfl, rfl⟩)]
          exact h
  | true =>
      simp only [if_true, List.singleton_append]
      have hack : isAckWrite (Ev.wrote (Frame.settings true)) = true := rfl
      simp only [ackDiscipline, hack, if_true, Bool.true_and]
      cases hr : st.refused with
      | none => simpa using h
      | some id =>
          rw [ackDiscipline_append_other [Ev.wrote (Frame.reset id .RefusedStream)]
            (by intro e he; simp at he; subst he; exact ⟨rfl, rfl⟩)]
          exact h

/-- When no ACK is owed, dispatching a frame leaves an ACK owed exactly
when the frame was a SETTINGS without ACK. -/
theorem dispatch_pending_of_false (st : ConnState) (f : Frame)
    (h : st.pending_ack = false) :
    (dispatchFrame st f).pending_ack = isSettingsRead (Ev.read f) := by
  cases f with
  | settings ack => cases ack <;> simp [dispatchFrame, isSettingsRead, h]
  | ping p => by_cases hp : p.ack <;> simp [dispatchFrame, hp, isSettingsRead, h]
  | headers a b => simp [dispatchFrame, isSettingsRead, h]
  | data a b c => simp [dispatchFrame, isSettingsRead, h]
  | reset a b => simp [dispatchFrame, isSettingsRead, h]
  | pushPromise a => simp [dispatchFrame, isSettingsRead, h]
  | windowUpdate a b => simp [dispatchFrame, isSettingsRead, h]

/-- The whole driver read loop obeys the ACK discipline, whatever the
inbound frame sequence. -/
theorem ackDiscipline_recvLoop : ∀ (inbound : List Frame) (st : ConnState),
    ackDiscipline st.pending_ack (recvLoop st inbound) = true
  | [], st => by
      rw [recvLoop]
      have h := ackDiscipline_poll_recv_ready st [] rfl
      simpa using h
  | f :: rest, st => by
      rw [recvLoop]
      apply ackDiscipline_poll_recv_ready
      have h2 := ackDiscipline_recvLoop rest (dispatchFrame (poll_recv_ready st).2 f)
      rw [dispatch_pending_of_false _ f rfl] at h2
      have haw : isAckWrite (Ev.read f) = false := rfl
      have hir : (Ev.read f).isRead = true := rfl
      cases hsr : isSettingsRead (Ev.read f) with
      | true =>
          rw [hsr] at h2
          simp only [ackDiscipline, haw, hsr, hir]
          simpa using h2
      | false =>
          rw [hsr] at h2
          simp only [ackDiscipline, haw, hsr, hir]
          simpa using h2

/-- C7: in the driver model, every non-ACK SETTINGS frame read is
answered by exactly one SETTINGS-ACK write — written (after any pending
pongs, and before the pending refusal) before the engine reads another
frame — and no SETTINGS-ACK is written unsolicited or twice
(`ackDiscipline` encodes exactly this).  Moreover `poll_send_ready`
commits all high-priority writes (pongs, SETTINGS-ACK, refusal) before
any pending WINDOW_UPDATE frame it produces. -/
theorem settings_ack_exactly_once (st : ConnState) (inbound : List Frame)
    (windowUpdates : List Frame) :
    ackDiscipline st.pending_ack (recvLoop st inbound) = true ∧
    (poll_send_ready st windowUpdates).1 =
      (poll_recv_ready st).1 ++ windowUpdates.map Ev.wrote :=
  ⟨ackDiscipline_recvLoop inbound st, rfl⟩

/-- Decoding inverts the continuation-byte encoding, leaving trailing
bytes untouched. -/
theorem decVar_encVar (n : Nat) : ∀ t : List Nat,
    decVar (encVar n ++ t) = some (n, t) := by
  induction n using Nat.strong_induction_on with
  | _ n ih =>
      intro t
      rw [encVar]
      by_cases h : n < 128
      · simp [h, decVar]
      · simp only [h, dite_false]
        have hb : ¬(n % 128 + 128 < 128) := by omega
        simp only [List.cons_append, decVar, hb, if_false, List.append_eq]
        rw [ih (n / 128) (Nat.div_lt_self (by omega) (by omega)) t]
        have : n % 128 + 128 - 128 + 128 * (n / 128) = n := by omega
        simp only [Option.map_some']
        simp
        omega

/-- Decoding inverts the 7-bit-prefix integer encoding. -/
theorem decInt7_encInt7 (n : Nat) (t : List Nat) :
    decInt7 (encInt7 n ++ t) = some (n, t) := by
  rw [encInt7]
  by_cases h : n < 127
  · have hmod : n % 128 = n := Nat.mod_eq_of_lt (by omega)
    simp [h, decInt7, hmod]
  · simp only [h, if_false, List.cons_append, decInt7, List.append_eq]
    have hmod : (127 : Nat) % 128 = 127 := by norm_num
    simp only [hmod, lt_irrefl, if_false]
    rw [decVar_encVar (n - 127) t]
    have : 127 + (n - 127) = n := by omega
    simp [this]

/-- Decoding inverts the string-literal encoding. -/
theorem decStr_encStr (s t : List Nat) : decStr (encStr s ++ t) = some (s, t) := by
  unfold decStr encStr
  rw [List.append_assoc, decInt7_encInt7]
  simp [List.take_left, List.drop_left]

/-- Decoding inverts the literal-never-indexed header encoding. -/
theorem decField_encField (f : HField) (t : List Nat) :
    decField (encField f ++ t) = some (f, t) := by
  unfold encField
  rw [List.cons_append, List.append_assoc]
  simp [decField, decStr_encStr]

/-- Each encoded header contributes at least one byte, so the block
length bounds the header count. -/
theorem length_le_hpackEncode (fs : List HField) :
    fs.length ≤ (hpackEncode fs).length := by
  induction fs with
  | nil => simp [hpackEncode]
  | cons f fs ih =>
      simp only [hpackEncode, List.map_cons, List.flatten_cons,
        List.length_append, List.length_cons, encField] at *
      omega

/-- The fueled field decoder inverts the block encoder given enough
fuel. -/
theorem decFieldsF_hpackEncode : ∀ (fs : List HField) (fuel : Nat),
    fs.length ≤ fuel → decFieldsF fuel (hpackEncode fs) = some fs
  | [], fuel, _ => by
      cases fuel <;> simp [hpackEncode, decFieldsF]
  | f :: fs, fuel, hle => by
      match fuel, hle with
      | fuel + 1, hle =>
        have henc : hpackEncode (f :: fs) =
            0x10 :: ((encStr f.name ++ encStr f.value) ++ hpackEncode fs) := by
          simp [hpackEncode, encField]
        rw [henc]
        have hdec : decField (0x10 :: ((encStr f.name ++ encStr f.value) ++
            hpackEncode fs)) = some (f, hpackEncode fs) := by
          have := decField_encField f (hpackEncode fs)
          simpa [encField] using this
        simp only [decFieldsF, hdec]
        rw [decFieldsF_hpackEncode fs fuel (by simpa using Nat.le_of_succ_le_succ hle)]
        rfl

/-- C8: HPACK-encoding an ordered header list and decoding the resulting
bytes yields the original list (round-trip identity). -/
theorem hpack_roundtrip (fs : List HField) :
    hpackDecode (hpackEncode fs) = some fs :=
  decFieldsF_hpackEncode fs (hpackEncode fs).length (length_le_hpackEncode fs)

/-- Reading an updated slot yields the updated record. -/
theorem QStore.update_self (s : QStore) (k : Key) (f : QStream → QStream) :
    s.update k f k = f (s k) := by
  simp [QStore.update]

/-- Reading any other slot is unaffected by an update. -/
theorem QStore.update_other (s : QStore) (k k2 : Key) (f : QStream → QStream)
    (h : k2 ≠ k) : s.update k f k2 = s k2 := by
  simp [QStore.update, h]

/-- The last element of a list with an element appended. -/
theorem getLast?_append_singleton : ∀ (l : List Key) (a : Key),
    (l ++ [a]).getLast? = some a
  | [], a => rfl
  | x :: xs, a => by
      have hrec := getLast?_append_singleton xs a
      cases xs with
      | nil => simp
      | cons y ys =>
          simp only [List.cons_append] at hrec ⊢
          rw [List.getLast?_cons_cons]
          exact hrec

/-- The element reported by `getLast?` is in the list. -/
theorem mem_of_getLast?_eq : ∀ (l : List Key) (t : Key),
    l.getLast? = some t → t ∈ l
  | [], t, h => by simp at h
  | [a], t, h => by
      have : a = t := by simpa using h
      simp [this]
  | a :: b :: rest, t, h => by
      have h' : (b :: rest).getLast? = some t := by
        rw [List.getLast?_cons_cons] at h
        exact h
      exact List.mem_cons_of_mem _ (mem_of_getLast?_eq (b :: rest) t h')

/-- Link lists only look at the slots of their members. -/
theorem linksB_congr (s s2 : QStore) : ∀ (l : List Key),
    (∀ a ∈ l, s2 a = s a) → linksB s2 l = linksB s l
  | [], _ => rfl
  | [a], h => by
      simp only [linksB, h a (List.mem_cons_self a _)]
  | a :: b :: rest, h => by
      have hrec := linksB_congr s s2 (b :: rest)
        (fun x hx => h x (List.mem_cons_of_mem _ hx))
      simp only [linksB, h a (List.mem_cons_self a _), hrec]

/-- Split the head link off a two-or-more element link list. -/
theorem linksB_head_next (s : QStore) (a b : Key) (rest : List Key)
    (h : linksB s (a :: b :: rest) = true) :
    (s a).next = some b ∧ linksB s (b :: rest) = true := by
  simpa [linksB] using h

/-- Appending a fresh element to a link list: redirect the old tail's
link to it and keep its own link clear. -/
theorem linksB_snoc (s s2 : QStore) : ∀ (l : List Key) (t key : Key),
    linksB s l = true → l.getLast? = some t → l.Nodup → key ∉ l →
    (∀ a ∈ l, a ≠ t → s2 a = s a) →
    (s2 t).next = some key → (s2 key).next = none →
    linksB s2 (l ++ [key]) = true
  | [], t, key, _, hlast, _, _, _, _, _ => by simp at hlast
  | [a], t, key, hl, hlast, hnd, hkey, hs2, ht, hk => by
      have hat : a = t := by simpa using hlast
      subst hat
      simp [linksB, ht, hk]
  | a :: b :: rest, t, key, hl, hlast, hnd, hkey, hs2, ht, hk => by
      obtain ⟨h1, h2⟩ := linksB_head_next s a b rest hl
      have hlast' : (b :: rest).getLast? = some t := by
        rw [List.getLast?_cons_cons] at hlast
        exact hlast
      have htmem : t ∈ b :: rest := mem_of_getLast?_eq _ t hlast'
      have hanotin : a ∉ b :: rest := (List.nodup_cons.mp hnd).1
      have hat : a ≠ t := fun hcontra => hanotin (hcontra ▸ htmem)
      have hs2a : s2 a = s a := hs2 a (List.mem_cons_self a _) hat
      have hrec := linksB_snoc s s2 (b :: rest) t key h2 hlast'
        (List.nodup_cons.mp hnd).2
        (fun hx => hkey (List.mem_cons_of_mem _ hx))
        (fun x hx hxt => hs2 x (List.mem_cons_of_mem _ hx) hxt) ht hk
      simp only [List.cons_append] at hrec ⊢
      simp only [linksB, hs2a, h1, hrec]
      simp

/-- Unfold `chainB` for a nonempty queue. -/
theorem chainB_some (store : QStore) (h t : Key) (l : List Key) :
    chainB store ⟨some (h, t)⟩ l = true ↔
      l.head? = some h ∧ l.getLast? = some t ∧ linksB store l = true ∧
      ∀ k ∈ l, (store k).is_queued = true := by
  simp [chainB, List.all_eq_true, and_assoc]

/-- Unfold `chainB` for an empty queue. -/
theorem chainB_none (store : QStore) (l : List Key) :
    chainB store ⟨none⟩ l = true ↔ l = [] := by
  simp [chainB]

/-- C9: membership in the intrusive queue is guarded by the queued flag.
`Queue::push` on a stream whose flag is set returns `false` and changes
nothing; a successful push links the stream at the tail (the queue's
contents become `l ++ [key]`); `Queue::pop` removes the head, clears its
queued flag, and leaves the remaining chain intact — so a stream never
appears in a queue twice. -/
theorem queue_push_pop (store : QStore) (q : SQueue) (l : List Key) (key : Key)
    (hch : chainB store q l = true) (hnd : l.Nodup) :
    ((store key).is_queued = true → Queue.push q store key = (false, q, store)) ∧
    ((store key).is_queued = false → (store key).next = none → key ∉ l →
      (Queue.push q store key).1 = true ∧
      chainB (Queue.push q store key).2.2 (Queue.push q store key).2.1
        (l ++ [key]) = true) ∧
    (∀ k rest, l = k :: rest →
      ∃ q2 store2, Queue.pop q store = .popped k q2 store2 ∧
        chainB store2 q2 rest = true ∧ (store2 k).is_queued = false) := by
  obtain ⟨qi⟩ := q
  refine ⟨fun hq => by simp [Queue.push, hq], ?_, ?_⟩
  · intro hq hnext hmem
    cases qi with
    | none =>
        have hl : l = [] := (chainB_none store l).mp hch
        subst hl
        refine ⟨by simp [Queue.push, hq], ?_⟩
        simp only [Queue.push, hq, Bool.false_eq_true, if_false, List.nil_append]
        rw [chainB_some]
        refine ⟨rfl, rfl, ?_, ?_⟩
        · simp [linksB, QStore.update_self, hnext]
        · intro k2 hk2
          have hk2e : k2 = key := by simpa using hk2
          simp [QStore.update, hk2e]
    | some ht =>
        obtain ⟨hh, tt⟩ := ht
        rw [chainB_some] at hch
        obtain ⟨hhead, hlast, hlinks, hallq⟩ := hch
        have httmem : tt ∈ l := mem_of_getLast?_eq l tt hlast
        have hktt : key ≠ tt := by
          intro he
          rw [he] at hmem
          exact hmem httmem
        refine ⟨by simp [Queue.push, hq], ?_⟩
        simp only [Queue.push, hq, Bool.false_eq_true, if_false]
        rw [chainB_some]
        obtain ⟨x, l', rfl⟩ : ∃ x l', l = x :: l' := by
          cases l with
          | nil => simp at hhead
          | cons x l' => exact ⟨x, l', rfl⟩
        have hx : x = hh := by simpa using hhead
        refine ⟨by simpa using hx, by rw [getLast?_append_singleton], ?_, ?_⟩
        · apply linksB_snoc store _ (x :: l') tt key hlinks hlast hnd hmem
          · intro a ha hat
            have hak : a ≠ key := by
              intro he
              rw [he] at ha
              exact hmem ha
            rw [QStore.update_other _ _ _ _ hat]
            exact QStore.update_other _ _ _ _ hak
          · rw [QStore.update_self]
          · rw [QStore.update_other _ _ _ _ hktt, QStore.update_self]
            exact hnext
        · intro k2 hk2
          rcases List.mem_append.mp hk2 with hk2 | hk2
          · by_cases hk2t : k2 = tt
            · by_cases httk : tt = key
              · simp [QStore.update, hk2t, httk]
              · simp only [hk2t, QStore.update_self]
                simp [QStore.update, httk]
                exact hallq tt httmem
            · have hk2key : k2 ≠ key := by
                intro he
                rw [he] at hk2
                exact hmem hk2
              rw [QStore.update_other _ _ _ _ hk2t,
                QStore.update_other _ _ _ _ hk2key]
              exact hallq k2 hk2
          · have hk2e : k2 = key := by simpa using hk2
            rw [hk2e, QStore.update_other _ _ _ _ hktt, QStore.update_self]
  · intro k rest hlk
    subst hlk
    cases qi with
    | none => simp [chainB] at hch
    | some ht =>
        obtain ⟨hh, tt⟩ := ht
        rw [chainB_some] at hch
        obtain ⟨hhead, hlast, hlinks, hallq⟩ := hch
        have hh_eq : hh = k := by
          have h := hhead
          simp only [List.head?_cons, Option.some.injEq] at h
          exact h.symm
        cases rest with
        | nil =>
            have tt_eq : tt = k := by
              have h := hlast
              simp only [List.getLast?_singleton, Option.some.injEq] at h
              exact h.symm
            have hnextk : (store k).next = none := by
              simpa [linksB] using hlinks
            refine ⟨⟨none⟩, store.update k fun s => { s with is_queued := false },
              ?_, ?_, ?_⟩
            · rw [hh_eq, tt_eq]
              simp [Queue.pop, hnextk]
            · simp [chainB]
            · simp [QStore.update]
        | cons r rs =>
            have hlast' : (r :: rs).getLast? = some tt := by
              rw [List.getLast?_cons_cons] at hlast
              exact hlast
            have httmem : tt ∈ r :: rs := mem_of_getLast?_eq _ tt hlast'
            have hknotin : k ∉ r :: rs := (List.nodup_cons.mp hnd).1
            have hktt : k ≠ tt := by
              intro he
              rw [he] at hknotin
              exact hknotin httmem
            obtain ⟨h1, h2⟩ := linksB_head_next store k r rs hlinks
            refine ⟨⟨some (r, tt)⟩,
              (store.update k fun s => { s with next := none }).update k
                fun s => { s with is_queued := false },
              ?_, ?_, ?_⟩
            · rw [hh_eq]
              simp [Queue.pop, hktt, h1]
            · rw [chainB_some]
              have hcong : ∀ a ∈ r :: rs,
                  ((store.update k fun s => { s with next := none }).update k
                    fun s => { s with is_queued := false }) a = store a := by
                intro a ha
                have hak : a ≠ k := by
                  intro he
                  rw [he] at ha
                  exact hknotin ha
                rw [QStore.update_other _ _ _ _ hak,
                  QStore.update_other _ _ _ _ hak]
              refine ⟨rfl, hlast', ?_, ?_⟩
              · rw [linksB_congr store _ (r :: rs) hcong]
                exact h2
              · intro k2 hk2
                rw [hcong k2 hk2]
                exact hallq k2 (List.mem_cons_of_mem _ hk2)
            · simp [QStore.update]

/-- Witness for C9 at a concrete slab: a two-element store; pushing key 2
onto the queue holding key 1 succeeds and appends it; pushing an
already-queued key fails; popping returns key 1 and clears its flag. -/
theorem queue_push_pop_witness :
    (Queue.push ⟨some (1, 1)⟩
        (fun k => if k = 1 then ⟨none, true⟩ else ⟨none, false⟩) 2).1 = true ∧
    chainB (Queue.push ⟨some (1, 1)⟩
        (fun k => if k = 1 then ⟨none, true⟩ else ⟨none, false⟩) 2).2.2
      (Queue.push ⟨some (1, 1)⟩
        (fun k => if k = 1 then ⟨none, true⟩ else ⟨none, false⟩) 2).2.1
      ([1] ++ [2]) = true ∧
    Queue.push ⟨some (1, 1)⟩
        (fun k => if k = 1 then ⟨none, true⟩ else ⟨none, false⟩) 1 =
      (false, ⟨some (1, 1)⟩,
        fun k => if k = 1 then ⟨none, true⟩ else ⟨none, false⟩) := by
  have h2 := queue_push_pop
    (fun k => if k = 1 then ⟨none, true⟩ else ⟨none, false⟩)
    ⟨some (1, 1)⟩ [1] 2 (by decide) (by decide)
  have h1 := queue_push_pop
    (fun k => if k = 1 then ⟨none, true⟩ else ⟨none, false⟩)
    ⟨some (1, 1)⟩ [1] 1 (by decide) (by decide)
  refine ⟨(h2.2.1 (by decide) (by decide) (by decide)).1,
    (h2.2.1 (by decide) (by decide) (by decide)).2, ?_⟩
  exact h1.1 (by decide)

end H2
